import Mathlib

/-!
Verification development for the contributor-dashboard opportunity
aggregator, the Android activity handler, and the translation fetchers
of this repository.

The opportunity aggregator (`fetch_page` and its cursor protocol) and
`get_multiple_entity_translations` are exercised by the repository's
tests but their implementation modules are not part of the source tree
here, so those operations are modelled from the specification document;
`AndroidActivityHandler.get` is translated directly from
`core/controllers/android.py`.
-/

namespace Oppia

/-- Modelled from the spec: `OpportunitySummary`, a denormalized record
describing one unit of contributable work.  Only the attributes the
aggregator contract observes are kept: the stable `id` and the
`is_pinned` flag.  (Display fields play no role in any contract.) -/
structure OpportunitySummary where
  id : Nat
  is_pinned : Bool
deriving DecidableEq

/-- Modelled from the spec: a raw candidate record held by the backing
store, carrying the attributes the category/language/topic filters
inspect.  Candidates appear in the store in its stable ascending order. -/
structure Candidate where
  id : Nat
  language_code : String
  topic_name : String
deriving DecidableEq

/-- Modelled from the spec: the backing-store collaborator.
`candidates` is the stable ordered sequence of raw records served by
`fetch_batch`; `topic_names` is the set of existing topics used to
validate a topic-name filter; `entity_live` plays the role of
`resolve_entity`: whether a candidate id still references a live,
well-formed entity. -/
structure Store where
  candidates : List Candidate
  topic_names : List String
  entity_live : Nat → Bool

/-- Modelled from the spec: the optional filters of a `fetch_page`
request (optional language code, optional topic-name filter; an empty
or absent filter matches all). -/
structure Filters where
  language_code : Option String
  topic_name : Option String
deriving DecidableEq

/-- Modelled from the spec: the set of supported language codes
(the spec treats the concrete set as an external constant; a fixed
finite set of codes used across the repository's tests). -/
def supported_language_codes : List String :=
  ["en", "bn", "es", "hi", "pt"]

/-- Modelled from the spec: a supplied language code is valid when it
belongs to the supported set; an absent language filter is valid. -/
def language_valid (flt : Filters) : Bool :=
  match flt.language_code with
  | none => true
  | some code => supported_language_codes.contains code

/-- Modelled from the spec: a supplied topic-name filter is valid when
it is empty or names an existing topic; an absent filter is valid. -/
def topic_filter_valid (store : Store) (flt : Filters) : Bool :=
  match flt.topic_name with
  | none => true
  | some t => t == "" || store.topic_names.contains t

/-- Modelled from the spec: whether a candidate passes the language
filter (absent filter matches all). -/
def language_matches (flt : Filters) (c : Candidate) : Bool :=
  match flt.language_code with
  | none => true
  | some code => c.language_code == code

/-- Modelled from the spec: whether a candidate passes the topic-name
filter (absent or empty filter matches all). -/
def topic_matches (flt : Filters) (c : Candidate) : Bool :=
  match flt.topic_name with
  | none => true
  | some t => t == "" || c.topic_name == t

/-- Modelled from the spec: a candidate is kept when its referenced
entity is still live and well-formed and it passes the
category/language/topic filters. -/
def candidate_matches (store : Store) (flt : Filters) (c : Candidate) : Bool :=
  store.entity_live c.id && language_matches flt c && topic_matches flt c

/-- Modelled from the spec: the validated, display-ready summary built
from a surviving candidate (pinning is applied later by the splice). -/
def summary_of (c : Candidate) : OpportunitySummary :=
  { id := c.id, is_pinned := false }

/-- Modelled from the spec: `Page`, the transient result of
`fetch_page`: the ordered entries, the resumption cursor and the
`more` flag. -/
structure Page where
  opportunities : List OpportunitySummary
  next_cursor : Nat
  more : Bool
deriving DecidableEq

/-- Modelled from the spec: the fetch-until-page-full loop.  Starting
from the remaining suffix of the backing store it accumulates valid
entries until `page_size` of them are collected or the store is
exhausted.  Returns the collected entries, the number of raw
candidates consumed (the cursor advance) and the `more` flag (raw data
remains past the stopping point). -/
def fetch_loop (store : Store) (flt : Filters) :
    Nat → List Candidate → List OpportunitySummary × Nat × Bool
  | 0, remaining => ([], 0, !remaining.isEmpty)
  | _ + 1, [] => ([], 0, false)
  | n + 1, c :: rest =>
    if candidate_matches store flt c then
      let r := fetch_loop store flt n rest
      (summary_of c :: r.1, r.2.1 + 1, r.2.2)
    else
      let r := fetch_loop store flt (n + 1) rest
      (r.1, r.2.1 + 1, r.2.2)

/-- Modelled from the spec: the pinned-entry splice, applied after
filtering.  When `get_pinned` produced a summary for the active scope:
if that opportunity was found naturally in this page it is only marked
`is_pinned`; otherwise it is injected at the front, displacing the
size accounting by one (the page is truncated back to `page_size`
entries). -/
def splice_pinned (pinned : Option OpportunitySummary) (page_size : Nat)
    (entries : List OpportunitySummary) : List OpportunitySummary :=
  match pinned with
  | none => entries
  | some p =>
    if entries.any (fun s => s.id == p.id) then
      entries.map (fun s => if s.id == p.id then { s with is_pinned := true } else s)
    else
      ({ p with is_pinned := true } :: entries).take page_size

/-- Modelled from the spec: `InvalidFilterError`, raised when a
supplied language code is unsupported or a supplied topic-name filter
matches no topic. -/
inductive InvalidFilterError where
  | unsupported_language
  | unknown_topic
deriving DecidableEq

/-- Modelled from the spec: `fetch_page(category, filters, cursor,
page_size)`.  Validates the filters (language first, without touching
the backing store), then scans batches from the cursor position,
skipping candidates whose backing entity is missing or invalid,
accumulating until `page_size` valid entries are collected or the
store is exhausted, and finally applies the pinned-entry splice.
`pinned` is the result of the `get_pinned(scope)` collaborator call
for the active scope. -/
def fetch_page (store : Store) (pinned : Option OpportunitySummary)
    (flt : Filters) (cursor page_size : Nat) : Except InvalidFilterError Page :=
  if language_valid flt then
    if topic_filter_valid store flt then
      let r := fetch_loop store flt page_size (store.candidates.drop cursor)
      .ok { opportunities := splice_pinned pinned page_size r.1,
            next_cursor := cursor + r.2.1,
            more := r.2.2 }
    else .error .unknown_topic
  else .error .unsupported_language

/-- Modelled from the spec: the caller-side chaining protocol, used to
state the pagination properties: repeatedly call `fetch_page` (with no
pinned opportunity for the scope) starting from `cursor`, feeding each
returned `next_cursor` into the next call while `more` is reported,
and concatenate the pages.  `fuel` bounds the number of calls. -/
def chain_pages (store : Store) (flt : Filters) (page_size : Nat) :
    Nat → Nat → List OpportunitySummary
  | 0, _ => []
  | fuel + 1, cursor =>
    match fetch_page store none flt cursor page_size with
    | .error _ => []
    | .ok page =>
      if page.more then
        page.opportunities ++ chain_pages store flt page_size fuel page.next_cursor
      else
        page.opportunities

/-- Modelled from the spec: errors surfaced by the caller-facing
opportunity endpoint: an invalid category is a not-found-class error,
an invalid filter a bad-request-class error. -/
inductive HandlerError where
  | not_found
  | bad_request (e : InvalidFilterError)
deriving DecidableEq

/-- Modelled from the spec: the enumerated category identifiers
accepted by the caller-facing opportunity endpoint. -/
def valid_opportunity_types : List String :=
  ["skill", "translation"]

/-- Modelled from the spec: the caller-facing opportunity endpoint.
A category identifier outside the enumerated set is a not-found-class
error; filter errors from the aggregator surface as bad-request-class
errors. -/
def opportunities_handler_get (store : Store) (pinned : Option OpportunitySummary)
    (opportunity_type : String) (flt : Filters) (cursor page_size : Nat) :
    Except HandlerError Page :=
  if valid_opportunity_types.contains opportunity_type then
    match fetch_page store pinned flt cursor page_size with
    | .error e => .error (.bad_request e)
    | .ok page => .ok page
  else
    .error .not_found

/-- One entry of the `activities_data` request list of
`AndroidActivityHandler.get` (`ActivityDataRequestDict` in
`core/controllers/android.py`): an id, an optional version and an
optional language code. -/
structure ActivityData where
  id : String
  version : Option Nat
  language_code : Option String
deriving DecidableEq

/-- The payloads `AndroidActivityHandler.get` places in a response
entry: a fetched entity (kept opaque, supplied by the collaborating
fetchers) or the question-ids payload of the `question_skill_link`
branch. -/
inductive AndroidPayload where
  | entity (serialized : String)
  | question_ids (ids : List String)
deriving DecidableEq

/-- One entry of the response list of `AndroidActivityHandler.get`
(`ActivityDataResponseDict`): the id echoed back, the optional version
and language code, and the payload (`none` when the referenced entity
was not found). -/
structure ActivityResponse where
  id : String
  version : Option Nat
  language_code : Option String
  payload : Option AndroidPayload
deriving DecidableEq

/-- Errors raised by `AndroidActivityHandler.get`:
`invalid_input msg` models `InvalidInputException(msg)`, and
`internal_error` models an unhandled exception (the compound subtopic
id failing to split into `topic_id-subtopic_index`). -/
inductive AndroidError where
  | invalid_input (msg : String)
  | internal_error
deriving DecidableEq

/-- The collaborating fetcher services consulted by
`AndroidActivityHandler.get`, each keyed the way the handler calls
them.  Payload contents are opaque to the handler. -/
structure AndroidStore where
  subtopic_page : String → Nat → Option Nat → Option String
  question_ids_by_skill_ids : List String → List (String × List String)
  classroom_by_url_fragment : String → Option String
  entity_translations : List (String × Option Nat × Option String) → List (Option String)
  entity_by_id_and_version : String → String → Option Nat → Option String

/-- The duplicate-entry detector of `AndroidActivityHandler.get`:
`len(set(hashed_activities_data)) != len(hashed_activities_data)`,
where each entry is hashed by its full `(id, version, language_code)`
field set. -/
def has_duplicate_entries (l : List ActivityData) : Bool :=
  decide (l.dedup.length ≠ l.length)

/-- Fallible element-wise mapping over `Except`, the shape of the
per-item loops of `AndroidActivityHandler.get` that can raise. -/
def exceptMapList {α β : Type} (f : α → Except AndroidError β) :
    List α → Except AndroidError (List β)
  | [] => .ok []
  | a :: rest =>
    match f a with
    | .error e => .error e
    | .ok b =>
      match exceptMapList f rest with
      | .error e => .error e
      | .ok bs => .ok (b :: bs)

/-- Splitting of a compound subtopic id `topic_id-subtopic_index`
(`activity_data['id'].split('-')` followed by `int(...)`); any other
shape is an unhandled exception in the source. -/
def split_subtopic_id (s : String) : Except AndroidError (String × Nat) :=
  match s.splitOn "-" with
  | [topic_id, index] =>
    match index.toNat? with
    | some n => .ok (topic_id, n)
    | none => .error .internal_error
  | _ => .error .internal_error

/-- The dispatch on `activity_type` performed by
`AndroidActivityHandler.get` after the duplicate-entry check,
translated branch by branch from `core/controllers/android.py`. -/
def android_activity_dispatch (store : AndroidStore) (activity_type : String)
    (activities_data : List ActivityData) :
    Except AndroidError (List ActivityResponse) :=
  if activity_type == "subtopic" then
    match exceptMapList (fun a => split_subtopic_id a.id) activities_data with
    | .error e => .error e
    | .ok split_ids =>
      .ok ((activities_data.zip split_ids).map (fun av =>
        { id := av.1.id, version := av.1.version, language_code := none,
          payload := (store.subtopic_page av.2.1 av.2.2 av.1.version).map .entity }))
  else if activity_type == "question_skill_link" then
    if activities_data.any (fun a => a.version.isSome) then
      .error (.invalid_input "Version cannot be specified for question_skill_link")
    else
      .ok ((store.question_ids_by_skill_ids (activities_data.map (fun a => a.id))).map
        (fun sq => { id := sq.1, version := none, language_code := none,
                     payload := some (.question_ids sq.2) }))
  else if activity_type == "classroom" then
    exceptMapList (fun a =>
      if a.version.isSome then
        .error (.invalid_input "Version cannot be specified for classroom")
      else
        .ok { id := a.id, version := none, language_code := none,
              payload := (store.classroom_by_url_fragment a.id).map .entity })
      activities_data
  else if activity_type == "exp_translations" then
    let refs := activities_data.map (fun a => (a.id, a.version, a.language_code))
    let translations := store.entity_translations refs
    .ok ((activities_data.zip translations).map (fun at_ =>
      { id := at_.1.id, version := at_.1.version, language_code := at_.1.language_code,
        payload := at_.2.map .entity }))
  else
    let entities := activities_data.map
      (fun a => store.entity_by_id_and_version activity_type a.id a.version)
    .ok ((activities_data.zip entities).map (fun ae =>
      { id := ae.1.id, version := ae.1.version, language_code := none,
        payload := ae.2.map .entity }))

/-- `AndroidActivityHandler.get` from `core/controllers/android.py`:
first rejects duplicate entries in `activities_data`, then dispatches
on the activity type. -/
def android_activity_handler_get (store : AndroidStore) (activity_type : String)
    (activities_data : List ActivityData) :
    Except AndroidError (List ActivityResponse) :=
  if has_duplicate_entries activities_data then
    .error (.invalid_input "Entries in activities_data should be unique")
  else
    android_activity_dispatch store activity_type activities_data

/-- Modelled from the spec: an `EntityTranslationsModel` row, keyed by
entity type, entity id, entity version and language code
(`translation_fetchers.py` is not part of this source tree; the
behaviour is fixed by `translation_fetchers_test.py`).  The
translations payload is opaque here. -/
structure EntityTranslation where
  entity_type : String
  entity_id : String
  entity_version : Nat
  language_code : String
  translations : String
deriving DecidableEq

/-- Modelled from the spec: one reference passed to
`get_multiple_entity_translations`. -/
structure TranslationReference where
  entity_type : String
  entity_id : String
  entity_version : Nat
  language_code : String
deriving DecidableEq

/-- Modelled from the spec: whether a stored translation row answers a
reference: all four key fields must agree. -/
def reference_matches (r : TranslationReference) (t : EntityTranslation) : Bool :=
  t.entity_type == r.entity_type && t.entity_id == r.entity_id &&
    t.entity_version == r.entity_version && t.language_code == r.language_code

/-- Modelled from the spec: `get_multiple_entity_translations`
(implementation not in this source tree; contract fixed by its tests):
for each reference, in order, the stored translation matching all four
key fields, or `None` when there is none. -/
def get_multiple_entity_translations (db : List EntityTranslation)
    (refs : List TranslationReference) : List (Option EntityTranslation) :=
  refs.map (fun r => db.find? (fun t => reference_matches r t))

/-- A concrete candidate used by the example instances below. -/
def sample_candidate (i : Nat) : Candidate :=
  { id := i, language_code := "hi", topic_name := "topic" }

/-- A concrete filter (Hindi, topic named topic) used by the example
instances below. -/
def example_filters : Filters :=
  { language_code := some "hi", topic_name := some "topic" }

/-- A filter carrying an unsupported language code. -/
def bad_language_filters : Filters :=
  { language_code := some "xx-not-a-lang", topic_name := none }

/-- A concrete backing store with three valid candidates. -/
def sample_store : Store :=
  { candidates := [sample_candidate 0, sample_candidate 1, sample_candidate 2],
    topic_names := ["topic"],
    entity_live := fun _ => true }

/-- A concrete backing store whose middle candidate references a
deleted entity (two valid and one invalid candidate interleaved). -/
def sample_store_with_invalid : Store :=
  { candidates := [sample_candidate 0, sample_candidate 1, sample_candidate 2],
    topic_names := ["topic"],
    entity_live := fun i => !(i == 1) }

theorem fetch_loop_entries (store : Store) (flt : Filters) :
    ∀ (n : Nat) (l : List Candidate),
      (fetch_loop store flt n l).1
        = ((l.filter (candidate_matches store flt)).map summary_of).take n := by
  intro n l
  induction l generalizing n with
  | nil => cases n <;> simp [fetch_loop]
  | cons c rest ih =>
    cases n with
    | zero => simp [fetch_loop]
    | succ m =>
      by_cases h : candidate_matches store flt c = true
      · simp [fetch_loop, h, List.filter_cons, ih]
      · simp [fetch_loop, h, List.filter_cons, ih]

theorem fetch_loop_consumed_le (store : Store) (flt : Filters) :
    ∀ (n : Nat) (l : List Candidate),
      (fetch_loop store flt n l).2.1 ≤ l.length := by
  intro n l
  induction l generalizing n with
  | nil => cases n <;> simp [fetch_loop]
  | cons c rest ih =>
    cases n with
    | zero => simp [fetch_loop]
    | succ m =>
      by_cases h : candidate_matches store flt c = true
      · simpa [fetch_loop, h] using ih m
      · simpa [fetch_loop, h] using ih (m + 1)

theorem fetch_loop_more_eq (store : Store) (flt : Filters) :
    ∀ (n : Nat) (l : List Candidate),
      (fetch_loop store flt n l).2.2
        = !(l.drop (fetch_loop store flt n l).2.1).isEmpty := by
  intro n l
  induction l generalizing n with
  | nil => cases n <;> simp [fetch_loop]
  | cons c rest ih =>
    cases n with
    | zero => simp [fetch_loop]
    | succ m =>
      by_cases h : candidate_matches store flt c = true
      · simpa [fetch_loop, h] using ih m
      · simpa [fetch_loop, h] using ih (m + 1)

theorem fetch_loop_filter_drop (store : Store) (flt : Filters) :
    ∀ (n : Nat) (l : List Candidate),
      (l.drop (fetch_loop store flt n l).2.1).filter (candidate_matches store flt)
        = (l.filter (candidate_matches store flt)).drop n := by
  intro n l
  induction l generalizing n with
  | nil => cases n <;> simp [fetch_loop]
  | cons c rest ih =>
    cases n with
    | zero => simp [fetch_loop]
    | succ m =>
      by_cases h : candidate_matches store flt c = true
      · simpa [fetch_loop, h, List.filter_cons] using ih m
      · simpa [fetch_loop, h, List.filter_cons] using ih (m + 1)

theorem fetch_loop_consumed_pos (store : Store) (flt : Filters)
    (n : Nat) (c : Candidate) (rest : List Candidate) :
    1 ≤ (fetch_loop store flt (n + 1) (c :: rest)).2.1 := by
  by_cases h : candidate_matches store flt c = true <;> simp [fetch_loop, h]

theorem fetch_page_ok (store : Store) (pinned : Option OpportunitySummary)
    (flt : Filters) (cursor page_size : Nat)
    (hl : language_valid flt = true) (ht : topic_filter_valid store flt = true) :
    fetch_page store pinned flt cursor page_size
      = .ok { opportunities := splice_pinned pinned page_size
                (fetch_loop store flt page_size (store.candidates.drop cursor)).1,
              next_cursor := cursor + (fetch_loop store flt page_size (store.candidates.drop cursor)).2.1,
              more := (fetch_loop store flt page_size (store.candidates.drop cursor)).2.2 } := by
  simp [fetch_page, hl, ht]

theorem chain_pages_eq (store : Store) (flt : Filters) (page_size : Nat)
    (hl : language_valid flt = true) (ht : topic_filter_valid store flt = true)
    (hp : 1 ≤ page_size) :
    ∀ (fuel cursor : Nat), (store.candidates.drop cursor).length < fuel →
      chain_pages store flt page_size fuel cursor
        = ((store.candidates.drop cursor).filter (candidate_matches store flt)).map summary_of := by
  obtain ⟨n, rfl⟩ : ∃ n, page_size = n + 1 := ⟨page_size - 1, by omega⟩
  intro fuel
  induction fuel with
  | zero => intro cursor h; omega
  | succ fuel ih =>
    intro cursor h
    have hfp := fetch_page_ok store none flt cursor (n + 1) hl ht
    cases hrem : store.candidates.drop cursor with
    | nil =>
      rw [hrem] at hfp
      simp only [chain_pages, hfp]
      simp [fetch_loop, splice_pinned, hrem]
    | cons c rest =>
      rw [hrem] at hfp h
      have hes := fetch_loop_entries store flt (n + 1) (c :: rest)
      have hfd := fetch_loop_filter_drop store flt (n + 1) (c :: rest)
      have hmore := fetch_loop_more_eq store flt (n + 1) (c :: rest)
      have hkpos := fetch_loop_consumed_pos store flt n c rest
      cases hm : (fetch_loop store flt (n + 1) (c :: rest)).2.2 with
      | false =>
        simp only [chain_pages, hfp, hm]
        rw [hm] at hmore
        have hnil : (c :: rest).drop (fetch_loop store flt (n + 1) (c :: rest)).2.1 = [] := by
          cases hdrop : (c :: rest).drop (fetch_loop store flt (n + 1) (c :: rest)).2.1 with
          | nil => rfl
          | cons x xs => rw [hdrop] at hmore; simp at hmore
        rw [hnil] at hfd
        have hlen : ((c :: rest).filter (candidate_matches store flt)).length ≤ n + 1 := by
          have := List.drop_eq_nil_iff.mp hfd.symm
          simpa using this
        simp only [splice_pinned, hes]
        have hmaplen :
            (((c :: rest).filter (candidate_matches store flt)).map summary_of).length ≤ n + 1 := by
          simpa using hlen
        rw [List.take_of_length_le hmaplen]
        simp
      | true =>
        simp only [chain_pages, hfp, hm]
        have hdd : store.candidates.drop
              (cursor + (fetch_loop store flt (n + 1) (c :: rest)).2.1)
            = (c :: rest).drop (fetch_loop store flt (n + 1) (c :: rest)).2.1 := by
          rw [← hrem, List.drop_drop, Nat.add_comm]
        have hlt : (store.candidates.drop
              (cursor + (fetch_loop store flt (n + 1) (c :: rest)).2.1)).length < fuel := by
          rw [hdd]
          have hlen := List.length_drop (fetch_loop store flt (n + 1) (c :: rest)).2.1 (c :: rest)
          simp only [List.length_cons] at hlen h ⊢
          omega
        rw [ih _ hlt, hdd, hfd]
        simp only [splice_pinned, hes, List.map_drop]
        exact List.take_append_drop (n + 1) _

/-- Claim C1 (counterexample): the claim quantifies over every
`page_size ≥ 0`, but with `page_size = 0` on a dataset holding three
valid candidates the cursor never advances (`next_cursor` equals the
start cursor and `more` stays true), so the chained pages concatenate
to the empty list and never visit any candidate. -/
theorem chain_page_size_zero_visits_nothing :
    fetch_page sample_store none example_filters 0 0
        = .ok { opportunities := [], next_cursor := 0, more := true }
      ∧ chain_pages sample_store example_filters 0
          (sample_store.candidates.length + 1) 0 = []
      ∧ (sample_store.candidates.filter
          (candidate_matches sample_store example_filters)).length = 3 := by
  refine ⟨rfl, rfl, rfl⟩

/-- Claim C1 (amended to `page_size ≥ 1`): over a fixed dataset and
valid filters, chaining `fetch_page` calls from the start cursor
through each returned `next_cursor` concatenates to exactly the valid
matching candidates, in the backing store's stable order, each exactly
once, with no duplicates and no omissions. -/
theorem chain_visits_each_valid_candidate_once
    (store : Store) (flt : Filters) (page_size : Nat)
    (hl : language_valid flt = true) (ht : topic_filter_valid store flt = true)
    (hp : 1 ≤ page_size) :
    chain_pages store flt page_size (store.candidates.length + 1) 0
      = (store.candidates.filter (candidate_matches store flt)).map summary_of := by
  have h := chain_pages_eq store flt page_size hl ht hp
    (store.candidates.length + 1) 0 (by simp)
  simpa using h

/-- Witness for the amended claim C1 on a concrete three-candidate
store with `page_size = 1`. -/
theorem chain_visits_each_valid_candidate_once_witness :
    chain_pages sample_store example_filters 1
        (sample_store.candidates.length + 1) 0
      = (sample_store.candidates.filter
          (candidate_matches sample_store example_filters)).map summary_of :=
  chain_visits_each_valid_candidate_once sample_store example_filters 1
    rfl rfl (by decide)

/-- Claim C2: with valid filters the page always holds the minimum of
`page_size` and the number of valid matching candidates past the
cursor — invalid or filtered-out candidates in early batches never
shorten the page while further candidates exist. -/
theorem fetch_page_fills_page_to_min
    (store : Store) (flt : Filters) (cursor page_size : Nat)
    (hl : language_valid flt = true) (ht : topic_filter_valid store flt = true) :
    ∃ page, fetch_page store none flt cursor page_size = .ok page ∧
      page.opportunities.length
        = min page_size
            (((store.candidates.drop cursor).filter
              (candidate_matches store flt)).length) := by
  refine ⟨_, fetch_page_ok store none flt cursor page_size hl ht, ?_⟩
  simp [splice_pinned, fetch_loop_entries]

/-- Witness for claim C2: two valid and one invalid candidate
interleaved with `page_size = 2` still yields two entries. -/
theorem fetch_page_fills_page_to_min_witness :
    ∃ page, fetch_page sample_store_with_invalid none example_filters 0 2
        = .ok page ∧
      page.opportunities.length
        = min 2 (((sample_store_with_invalid.candidates.drop 0).filter
            (candidate_matches sample_store_with_invalid example_filters)).length) :=
  fetch_page_fills_page_to_min sample_store_with_invalid example_filters 0 2 rfl rfl

/-- Claim C4: with `page_size = 0` over a non-exhausted scope,
`fetch_page` returns no entries, reports `more = true`, and leaves the
scan position unchanged; re-querying the returned cursor with
`page_size = 1` yields exactly the first valid candidate. -/
theorem fetch_page_zero_size_consumes_nothing
    (store : Store) (flt : Filters) (cursor : Nat)
    (hl : language_valid flt = true) (ht : topic_filter_valid store flt = true)
    (hne : (store.candidates.drop cursor).filter (candidate_matches store flt) ≠ []) :
    fetch_page store none flt cursor 0
        = .ok { opportunities := [], next_cursor := cursor, more := true }
      ∧ ∃ page, fetch_page store none flt cursor 1 = .ok page ∧
          page.opportunities.length = 1 ∧
          page.opportunities.head?
            = (((store.candidates.drop cursor).filter
                (candidate_matches store flt)).head?).map summary_of := by
  have hrem : store.candidates.drop cursor ≠ [] := by
    intro h0
    rw [h0] at hne
    simp at hne
  obtain ⟨x, xs, hx⟩ := List.exists_cons_of_ne_nil hne
  constructor
  · rw [fetch_page_ok store none flt cursor 0 hl ht]
    have hie : (store.candidates.drop cursor).isEmpty = false := by
      cases hd : store.candidates.drop cursor with
      | nil => exact absurd hd hrem
      | cons a as => rfl
    simp [fetch_loop, splice_pinned, hie]
  · refine ⟨_, fetch_page_ok store none flt cursor 1 hl ht, ?_, ?_⟩
    · simp [splice_pinned, fetch_loop_entries, hx]
    · simp [splice_pinned, fetch_loop_entries, hx]

/-- Witness for claim C4 on a concrete three-candidate store. -/
theorem fetch_page_zero_size_consumes_nothing_witness :
    fetch_page sample_store none example_filters 0 0
        = .ok { opportunities := [], next_cursor := 0, more := true }
      ∧ ∃ page, fetch_page sample_store none example_filters 0 1 = .ok page ∧
          page.opportunities.length = 1 ∧
          page.opportunities.head?
            = (((sample_store.candidates.drop 0).filter
                (candidate_matches sample_store example_filters)).head?).map summary_of :=
  fetch_page_zero_size_consumes_nothing sample_store example_filters 0
    rfl rfl (by decide)

/-- Claim C5: with valid filters `fetch_page` never fails, and every
entry of the returned page is the summary of a candidate whose
referenced entity is still live — candidates with missing or invalid
entities are silently dropped. -/
theorem fetch_page_entries_reference_live_entities
    (store : Store) (flt : Filters) (cursor page_size : Nat)
    (hl : language_valid flt = true) (ht : topic_filter_valid store flt = true) :
    ∃ page, fetch_page store none flt cursor page_size = .ok page ∧
      ∀ s ∈ page.opportunities, ∃ c, c ∈ store.candidates
        ∧ store.entity_live c.id = true ∧ s = summary_of c := by
  refine ⟨_, fetch_page_ok store none flt cursor page_size hl ht, ?_⟩
  intro s hs
  simp only [splice_pinned, fetch_loop_entries] at hs
  have hs2 : s ∈ ((store.candidates.drop cursor).filter
      (candidate_matches store flt)).map summary_of :=
    List.take_subset _ _ hs
  obtain ⟨c, hc, rfl⟩ := List.mem_map.mp hs2
  obtain ⟨hcmem, hcflt⟩ := List.mem_filter.mp hc
  refine ⟨c, List.drop_subset _ _ hcmem, ?_, rfl⟩
  simp only [candidate_matches, Bool.and_eq_true] at hcflt
  exact hcflt.1.1

/-- Witness for claim C5 on the store with an invalid candidate. -/
theorem fetch_page_entries_reference_live_entities_witness :
    ∃ page, fetch_page sample_store_with_invalid none example_filters 0 3
        = .ok page ∧
      ∀ s ∈ page.opportunities, ∃ c, c ∈ sample_store_with_invalid.candidates
        ∧ sample_store_with_invalid.entity_live c.id = true ∧ s = summary_of c :=
  fetch_page_entries_reference_live_entities sample_store_with_invalid
    example_filters 0 3 rfl rfl

/-- Claim C6: over a static dataset, once a page reports
`more = false`, re-querying its `next_cursor` with any positive page
size yields an empty page that again reports `more = false`. -/
theorem more_false_next_query_empty
    (store : Store) (flt : Filters) (cursor page_size page_size2 : Nat) (page : Page)
    (hl : language_valid flt = true) (ht : topic_filter_valid store flt = true)
    (hfetch : fetch_page store none flt cursor page_size = .ok page)
    (hmore : page.more = false) (hp2 : 1 ≤ page_size2) :
    ∃ page2, fetch_page store none flt page.next_cursor page_size2 = .ok page2 ∧
      page2.opportunities = [] ∧ page2.more = false := by
  rw [fetch_page_ok store none flt cursor page_size hl ht] at hfetch
  obtain rfl := (Except.ok.inj hfetch).symm
  obtain ⟨m, rfl⟩ : ∃ m, page_size2 = m + 1 := ⟨page_size2 - 1, by omega⟩
  have hmq := fetch_loop_more_eq store flt page_size (store.candidates.drop cursor)
  simp only at hmore
  rw [hmore] at hmq
  have hdnil : (store.candidates.drop cursor).drop
      (fetch_loop store flt page_size (store.candidates.drop cursor)).2.1 = [] := by
    cases hd : (store.candidates.drop cursor).drop
        (fetch_loop store flt page_size (store.candidates.drop cursor)).2.1 with
    | nil => rfl
    | cons a as => rw [hd] at hmq; simp at hmq
  have hnext : store.candidates.drop
      (cursor + (fetch_loop store flt page_size (store.candidates.drop cursor)).2.1) = [] := by
    rw [← List.drop_drop]
    exact hdnil
  refine ⟨_, fetch_page_ok store none flt _ (m + 1) hl ht, ?_, ?_⟩
  · simp only [hnext]
    simp [fetch_loop, splice_pinned]
  · simp only [hnext]
    simp [fetch_loop]

/-- Witness for claim C6: the page starting past the end of the
concrete store reports `more = false`, and its cursor re-queries to an
empty page. -/
theorem more_false_next_query_empty_witness :
    ∃ page2, fetch_page sample_store none example_filters
        ({ opportunities := ([] : List OpportunitySummary), next_cursor := 3,
           more := false } : Page).next_cursor 1 = .ok page2 ∧
      page2.opportunities = [] ∧ page2.more = false :=
  more_false_next_query_empty sample_store example_filters 3 1 1
    { opportunities := [], next_cursor := 3, more := false }
    rfl rfl rfl rfl (by decide)

/-- Claim C7: `fetch_page` fails with an `InvalidFilterError` exactly
when the supplied language code is unsupported or the supplied
non-empty topic-name filter matches no topic; an unsupported language
fails identically for every backing store (the store is never
touched), and an absent or empty filter never triggers the failure. -/
theorem invalid_filter_error_characterisation
    (store : Store) (flt : Filters) (cursor page_size : Nat) :
    ((∃ e, fetch_page store none flt cursor page_size = .error e)
        ↔ (language_valid flt = false ∨ topic_filter_valid store flt = false))
      ∧ (language_valid flt = false →
          ∀ (other_store : Store) (other_cursor other_page_size : Nat),
            fetch_page other_store none flt other_cursor other_page_size
              = .error .unsupported_language)
      ∧ ((flt.topic_name = none ∨ flt.topic_name = some "") →
          language_valid flt = true →
          ∃ page, fetch_page store none flt cursor page_size = .ok page) := by
  refine ⟨⟨?_, ?_⟩, ?_, ?_⟩
  · rintro ⟨e, he⟩
    by_cases hl : language_valid flt = true
    · by_cases ht : topic_filter_valid store flt = true
      · rw [fetch_page_ok store none flt cursor page_size hl ht] at he
        simp at he
      · right
        simpa using ht
    · left
      simpa using hl
  · rintro (hl | ht)
    · exact ⟨.unsupported_language, by simp [fetch_page, hl]⟩
    · by_cases hl : language_valid flt = true
      · exact ⟨.unknown_topic, by simp [fetch_page, hl, ht]⟩
      · have hl2 : language_valid flt = false := by simpa using hl
        exact ⟨.unsupported_language, by simp [fetch_page, hl2]⟩
  · intro hl other_store other_cursor other_page_size
    simp [fetch_page, hl]
  · intro htop hl
    have ht : topic_filter_valid store flt = true := by
      rcases htop with h | h <;> simp [topic_filter_valid, h]
    exact ⟨_, fetch_page_ok store none flt cursor page_size hl ht⟩

/-- Witness for claim C7: an unsupported language code makes
`fetch_page` fail on a concrete store. -/
theorem invalid_filter_error_characterisation_witness :
    ∃ e, fetch_page sample_store none bad_language_filters 0 1 = .error e :=
  (invalid_filter_error_characterisation sample_store bad_language_filters 0 1).1.mpr
    (Or.inl rfl)

/-- Claim C8: a category identifier outside the enumerated set makes
the caller-facing opportunity endpoint fail with the not-found-class
error — never a bad-request error and never an empty page. -/
theorem invalid_category_is_not_found
    (store : Store) (pinned : Option OpportunitySummary) (flt : Filters)
    (cursor page_size : Nat) (opportunity_type : String)
    (h : valid_opportunity_types.contains opportunity_type = false) :
    opportunities_handler_get store pinned opportunity_type flt cursor page_size
      = .error .not_found := by
  have h2 : ¬ (opportunity_type ∈ valid_opportunity_types) := by simpa using h
  simp [opportunities_handler_get, h2]

/-- Witness for claim C8 at the concrete invalid category identifier
used by the repository's test. -/
theorem invalid_category_is_not_found_witness :
    opportunities_handler_get sample_store none "invalid_opportunity_type"
        example_filters 0 1 = .error .not_found :=
  invalid_category_is_not_found sample_store none example_filters 0 1
    "invalid_opportunity_type" rfl

theorem has_duplicate_entries_iff (l : List ActivityData) :
    has_duplicate_entries l = true ↔ ¬ l.Nodup := by
  unfold has_duplicate_entries
  rw [decide_eq_true_iff]
  constructor
  · intro hne hnd
    exact hne (by rw [hnd.dedup])
  · intro hnd heq
    exact hnd (List.dedup_eq_self.mp
      (List.Sublist.eq_of_length (List.dedup_sublist l) heq))

theorem split_subtopic_id_no_invalid_input (s msg : String) :
    split_subtopic_id s ≠ .error (.invalid_input msg) := by
  unfold split_subtopic_id
  split
  · split
    · simp
    · simp
  · simp

theorem exceptMapList_ne_error {α β : Type} (f : α → Except AndroidError β)
    (e : AndroidError) (hf : ∀ a, f a ≠ .error e) :
    ∀ l : List α, exceptMapList f l ≠ .error e := by
  intro l
  induction l with
  | nil => simp [exceptMapList]
  | cons a rest ih =>
    intro hcontra
    simp only [exceptMapList] at hcontra
    cases hfa : f a with
    | error e2 =>
      rw [hfa] at hcontra
      simp only [Except.error.injEq] at hcontra
      exact hf a (by rw [hfa, hcontra])
    | ok b =>
      rw [hfa] at hcontra
      cases hrest : exceptMapList f rest with
      | error e2 =>
        rw [hrest] at hcontra
        simp only [Except.error.injEq] at hcontra
        exact ih (by rw [hrest, hcontra])
      | ok bs =>
        rw [hrest] at hcontra
        simp at hcontra

theorem android_activity_dispatch_no_unique_error
    (store : AndroidStore) (activity_type : String) (l : List ActivityData) :
    android_activity_dispatch store activity_type l
      ≠ .error (.invalid_input "Entries in activities_data should be unique") := by
  intro hcontra
  unfold android_activity_dispatch at hcontra
  split at hcontra
  · cases hsplit : exceptMapList (fun a => split_subtopic_id a.id) l with
    | error e2 =>
      rw [hsplit] at hcontra
      simp only [Except.error.injEq] at hcontra
      exact exceptMapList_ne_error (fun a => split_subtopic_id a.id) _
        (fun a => split_subtopic_id_no_invalid_input a.id _) l
        (by rw [hsplit, hcontra])
    | ok split_ids =>
      rw [hsplit] at hcontra
      simp at hcontra
  · split at hcontra
    · split at hcontra
      · simp only [Except.error.injEq, AndroidError.invalid_input.injEq] at hcontra
        exact absurd hcontra (by decide)
      · simp at hcontra
    · split at hcontra
      · refine absurd hcontra (exceptMapList_ne_error _ _ ?_ l)
        intro a
        by_cases hv : a.version.isSome = true
        · simp only [hv, if_true]
          intro hbad
          simp only [Except.error.injEq, AndroidError.invalid_input.injEq] at hbad
          exact absurd hbad (by decide)
        · simp [hv]
      · split at hcontra
        · simp at hcontra
        · simp at hcontra

/-- Claim C9: `AndroidActivityHandler.get` raises the
InvalidInputException about unique entries exactly when
`activities_data` holds two positions with identical `(id, version,
language_code)` field sets; the check is independent of the backing
fetchers (it fires before any entity fetch) and never fires on
pairwise-distinct entries. -/
theorem android_duplicate_entries_rejected
    (store : AndroidStore) (activity_type : String)
    (activities_data : List ActivityData) :
    android_activity_handler_get store activity_type activities_data
        = .error (.invalid_input "Entries in activities_data should be unique")
      ↔ ∃ i j : Fin activities_data.length,
          i ≠ j ∧ activities_data.get i = activities_data.get j := by
  constructor
  · intro h
    by_cases hd : has_duplicate_entries activities_data = true
    · have hnd := (has_duplicate_entries_iff _).mp hd
      rw [List.nodup_iff_injective_get] at hnd
      obtain ⟨i, j, hij, hne⟩ := Function.not_injective_iff.mp hnd
      exact ⟨i, j, hne, hij⟩
    · have hd2 : has_duplicate_entries activities_data = false := by
        simpa using hd
      rw [android_activity_handler_get, hd2] at h
      simp only [Bool.false_eq_true, if_false] at h
      exact absurd h (android_activity_dispatch_no_unique_error _ _ _)
  · rintro ⟨i, j, hne, hij⟩
    have hnd : ¬ activities_data.Nodup := by
      rw [List.nodup_iff_injective_get]
      intro hinj
      exact hne (hinj hij)
    have hd : has_duplicate_entries activities_data = true :=
      (has_duplicate_entries_iff _).mpr hnd
    simp [android_activity_handler_get, hd]

/-- Claim C10: `get_multiple_entity_translations` returns one result
per reference, in order, where position `i` is `None` exactly when no
stored translation matches the `i`-th reference on all four key
fields, and the empty reference list yields the empty result list. -/
theorem get_multiple_entity_translations_pointwise
    (db : List EntityTranslation) (refs : List TranslationReference) :
    (get_multiple_entity_translations db refs).length = refs.length
      ∧ (∀ i : Fin refs.length,
          ((get_multiple_entity_translations db refs).get
              (Fin.cast (by simp [get_multiple_entity_translations]) i) = none
            ↔ ∀ t ∈ db, reference_matches (refs.get i) t = false))
      ∧ get_multiple_entity_translations db ([] : List TranslationReference) = [] := by
  refine ⟨by simp [get_multiple_entity_translations], ?_, rfl⟩
  intro i
  have hget : (get_multiple_entity_translations db refs).get
      (Fin.cast (by simp [get_multiple_entity_translations]) i)
      = db.find? (fun t => reference_matches (refs.get i) t) := by
    simp [get_multiple_entity_translations]
  rw [hget, List.find?_eq_none]
  constructor
  · intro h t ht
    have h2 := h t ht
    simpa using h2
  · intro h t ht
    simpa using h t ht

theorem countP_beq_le_one_of_nodup (pid : Nat) :
    ∀ l : List Nat, l.Nodup → l.countP (fun i => i == pid) ≤ 1 := by
  intro l
  induction l with
  | nil => simp
  | cons a rest ih =>
    intro hnd
    rw [List.nodup_cons] at hnd
    by_cases ha : (a == pid) = true
    · have hzero : rest.countP (fun i => i == pid) = 0 := by
        rw [List.countP_eq_zero]
        intro b hb hbeq
        have hbp : b = pid := by simpa using hbeq
        have hap : a = pid := by simpa using ha
        exact hnd.1 (by rw [hap, ← hbp]; exact hb)
      simp [List.countP_cons, ha, hzero]
    · have ha2 : (a == pid) = false := by simpa using ha
      have hrest := ih hnd.2
      simp only [List.countP_cons, ha2, Bool.false_eq_true, if_false]
      omega

theorem natural_take_sublist (store : Store) (flt : Filters) (cursor page_size : Nat) :
    (((store.candidates.drop cursor).filter
        (candidate_matches store flt)).take page_size).Sublist store.candidates :=
  ((List.take_sublist _ _).trans (List.filter_sublist _)).trans
    (List.drop_sublist _ _)

theorem candidate_countP_id_le_one (store : Store) (flt : Filters)
    (cursor page_size : Nat) (pid : Nat)
    (hids : (store.candidates.map Candidate.id).Nodup) :
    ((((store.candidates.drop cursor).filter
        (candidate_matches store flt)).take page_size).countP
      (fun c => c.id == pid)) ≤ 1 := by
  have hsub := (natural_take_sublist store flt cursor page_size).map Candidate.id
  have hnd := hids.sublist hsub
  have hmap : ((((store.candidates.drop cursor).filter
        (candidate_matches store flt)).take page_size).map Candidate.id).countP
      (fun i => i == pid)
      = (((store.candidates.drop cursor).filter
          (candidate_matches store flt)).take page_size).countP
        (fun c => c.id == pid) := by
    rw [List.countP_map]
    rfl
  rw [← hmap]
  exact countP_beq_le_one_of_nodup pid _ hnd

/-- Claim C3: with a pinned opportunity for the active scope (and
distinct ids in the backing store), `fetch_page` returns a page that
holds exactly one entry with the pinned opportunity's id, marked
`is_pinned`; a natural occurrence is only marked, never duplicated;
the page never exceeds `page_size` entries, and it holds exactly
`page_size` entries whenever that many valid natural candidates
remain. -/
theorem fetch_page_pinned_appears_exactly_once
    (store : Store) (flt : Filters) (cursor page_size : Nat) (p : OpportunitySummary)
    (hl : language_valid flt = true) (ht : topic_filter_valid store flt = true)
    (hp : 1 ≤ page_size)
    (hids : (store.candidates.map Candidate.id).Nodup) :
    ∃ page, fetch_page store (some p) flt cursor page_size = .ok page ∧
      page.opportunities.countP (fun s => s.id == p.id) = 1 ∧
      (∀ s ∈ page.opportunities, s.id = p.id → s.is_pinned = true) ∧
      page.opportunities.length ≤ page_size ∧
      (page_size ≤ ((store.candidates.drop cursor).filter
          (candidate_matches store flt)).length →
        page.opportunities.length = page_size) := by
  refine ⟨_, fetch_page_ok store (some p) flt cursor page_size hl ht, ?_⟩
  have hes := fetch_loop_entries store flt page_size (store.candidates.drop cursor)
  have hcle := candidate_countP_id_le_one store flt cursor page_size p.id hids
  have hmapcnt :
      ((fetch_loop store flt page_size (store.candidates.drop cursor)).1).countP
          (fun s => s.id == p.id)
        = ((((store.candidates.drop cursor).filter
            (candidate_matches store flt)).take page_size).countP
          (fun c => c.id == p.id)) := by
    rw [hes, ← List.map_take, List.countP_map]
    rfl
  have hmemnat : ∀ s ∈ (fetch_loop store flt page_size
        (store.candidates.drop cursor)).1, s.is_pinned = false := by
    intro s hs
    rw [hes, ← List.map_take] at hs
    obtain ⟨c, _, rfl⟩ := List.mem_map.mp hs
    rfl
  have hlen : ((fetch_loop store flt page_size (store.candidates.drop cursor)).1).length
      = min page_size (((store.candidates.drop cursor).filter
          (candidate_matches store flt)).length) := by
    rw [hes]
    simp
  by_cases hnat : ((fetch_loop store flt page_size (store.candidates.drop cursor)).1).any
      (fun s => s.id == p.id) = true
  · -- the pinned opportunity occurs naturally: only mark it
    have hsp : splice_pinned (some p) page_size
        (fetch_loop store flt page_size (store.candidates.drop cursor)).1
        = ((fetch_loop store flt page_size (store.candidates.drop cursor)).1).map
            (fun s => if s.id == p.id then { s with is_pinned := true } else s) := by
      simp only [splice_pinned, hnat, if_true]
    simp only [hsp]
    have hcongr : (((fetch_loop store flt page_size (store.candidates.drop cursor)).1).map
          (fun s => if s.id == p.id then { s with is_pinned := true } else s)).countP
        (fun s => s.id == p.id)
        = ((fetch_loop store flt page_size (store.candidates.drop cursor)).1).countP
          (fun s => s.id == p.id) := by
      rw [List.countP_map]
      apply List.countP_congr
      intro s _
      by_cases h0 : (s.id == p.id) = true
      · have heq : s.id = p.id := by simpa using h0
        simp [heq]
      · have hne : ¬ s.id = p.id := by simpa using h0
        simp [hne]
    refine ⟨?_, ?_, ?_, ?_⟩
    · rw [hcongr]
      have hpos : 0 < ((fetch_loop store flt page_size
          (store.candidates.drop cursor)).1).countP (fun s => s.id == p.id) := by
        rw [List.countP_pos_iff]
        simpa using hnat
      rw [hmapcnt] at hpos ⊢
      omega
    · intro s hs hid
      obtain ⟨s0, _, rfl⟩ := List.mem_map.mp hs
      by_cases h0 : (s0.id == p.id) = true
      · have heq : s0.id = p.id := by simpa using h0
        simp [heq]
      · have hne : ¬ s0.id = p.id := by simpa using h0
        have hbf : (s0.id == p.id) = false := by simpa using h0
        simp only [hbf, Bool.false_eq_true, if_false] at hid ⊢
        exact absurd hid hne
    · rw [List.length_map, hlen]
      omega
    · intro hfull
      rw [List.length_map, hlen]
      omega
  · -- the pinned opportunity is injected, displacing one entry
    have hsp : splice_pinned (some p) page_size
        (fetch_loop store flt page_size (store.candidates.drop cursor)).1
        = ({ p with is_pinned := true } ::
            (fetch_loop store flt page_size (store.candidates.drop cursor)).1).take
          page_size := by
      have hnat2 : ((fetch_loop store flt page_size
          (store.candidates.drop cursor)).1).any (fun s => s.id == p.id) = false := by
        simpa using hnat
      simp only [splice_pinned, hnat2, Bool.false_eq_true, if_false]
    simp only [hsp]
    obtain ⟨m, rfl⟩ : ∃ m, page_size = m + 1 := ⟨page_size - 1, by omega⟩
    rw [List.take_succ_cons]
    have hznat : ∀ s ∈ (fetch_loop store flt (m + 1)
        (store.candidates.drop cursor)).1, (s.id == p.id) = false := by
      intro s hs
      have hallne : ∀ x ∈ (fetch_loop store flt (m + 1)
          (store.candidates.drop cursor)).1, ¬ x.id = p.id := by
        simpa using hnat
      simpa using hallne s hs
    have hzero : (((fetch_loop store flt (m + 1)
        (store.candidates.drop cursor)).1).take m).countP (fun s => s.id == p.id) = 0 := by
      rw [List.countP_eq_zero]
      intro s hs hbad
      have := hznat s (List.take_subset _ _ hs)
      rw [this] at hbad
      exact absurd hbad (by simp)
    refine ⟨?_, ?_, ?_, ?_⟩
    · rw [List.countP_cons_of_pos _ _ (by simp), hzero]
    · intro s hs hid
      rcases List.mem_cons.mp hs with h0 | h0
      · rw [h0]
      · have hzf := hznat s (List.take_subset _ _ h0)
        exact absurd hid (by simpa using hzf)
    · rw [List.length_cons]
      have := List.length_take_le m
        ((fetch_loop store flt (m + 1) (store.candidates.drop cursor)).1)
      omega
    · intro hfull
      rw [List.length_cons, List.length_take, hlen]
      omega

/-- Witness for claim C3 on a concrete store where the pinned
opportunity also occurs naturally in the page. -/
theorem fetch_page_pinned_appears_exactly_once_witness :
    ∃ page, fetch_page sample_store (some { id := 0, is_pinned := false })
        example_filters 0 2 = .ok page ∧
      page.opportunities.countP (fun s => s.id == (0 : Nat)) = 1 ∧
      (∀ s ∈ page.opportunities, s.id = (0 : Nat) → s.is_pinned = true) ∧
      page.opportunities.length ≤ 2 ∧
      (2 ≤ ((sample_store.candidates.drop 0).filter
          (candidate_matches sample_store example_filters)).length →
        page.opportunities.length = 2) :=
  fetch_page_pinned_appears_exactly_once sample_store example_filters 0 2
    { id := 0, is_pinned := false } rfl rfl (by decide) (by decide)

end Oppia
